/-
Verification of the Sentiment Scoring & Aggregation Engine
(src/tools/sentiment_tool.py) against its specification.

Numbers: the Python code computes with floats; we model them as exact
rationals (ℚ), which is the arithmetic the specification describes.  The
source's final `round(x, 3)` calls are presentation-layer rounding of the
returned dict values and are omitted; every branch condition and label in
the source is computed from the unrounded value, which is what we model.

Text: Python `str` values are modelled as `List Char`.
-/
import Mathlib

namespace SentimentTool

/-- Sentiment labels, the string values 'positive' / 'negative' / 'neutral'. -/
inductive Sentiment where
  | positive
  | negative
  | neutral
deriving DecidableEq, Repr

/-- The label-derivation expression that appears (with various thresholds) in the
source: `'positive' if s > posT else 'negative' if s < negT else 'neutral'`. -/
def sentimentOfThr (posT negT s : ℚ) : Sentiment :=
  if s > posT then .positive else if s < negT then .negative else .neutral

/-- Python built-in `min(a, b)` (returns the first argument on ties). -/
def pyMin (a b : ℚ) : ℚ := if a ≤ b then a else b

/-- Python built-in `max(a, b)` (returns the first argument on ties). -/
def pyMax (a b : ℚ) : ℚ := if b ≤ a then a else b

/-- Python `max(lo, min(hi, x))` clamping. -/
def clampQ (lo hi x : ℚ) : ℚ := pyMax lo (pyMin hi x)

/-- Python `text.lower()` (ASCII case folding suffices for the engine's vocabulary). -/
def toLowerL (s : List Char) : List Char := s.map Char.toLower

/-- Python substring containment `needle in hay`. -/
def containsSub (needle : List Char) : List Char → Bool
  | [] => needle.isEmpty
  | c :: t => needle.isPrefixOf (c :: t) || containsSub needle t

/-- Python `\s` / `str.strip` whitespace (ASCII): space, \t, \n, \r, \f, \v. -/
def pyIsSpace (c : Char) : Bool :=
  c = ' ' || c = '\t' || c = '\n' || c = '\r' || c.toNat = 12 || c.toNat = 11

/-- Python `str.strip()`. -/
def pyStrip (s : List Char) : List Char :=
  ((s.dropWhile pyIsSpace).reverse.dropWhile pyIsSpace).reverse

/-- Python `str.lstrip('@')`. -/
def pyLstripAt (p : List Char) : List Char := p.dropWhile (fun c => c = '@')

/-- Python `str.isupper()` for ASCII: at least one cased character and no
lowercase cased character. -/
def pyIsUpperWord (w : List Char) : Bool :=
  w.any Char.isAlpha && w.all (fun c => !c.isAlpha || c.isUpper)

/-- Python `str.split()`: split on whitespace runs, discarding empty pieces. -/
def pyWordsAux (acc : List Char) : List Char → List (List Char)
  | [] => if acc.isEmpty then [] else [acc.reverse]
  | c :: t =>
      if pyIsSpace c then
        if acc.isEmpty then pyWordsAux [] t else acc.reverse :: pyWordsAux [] t
      else pyWordsAux (c :: acc) t

def pyWords (s : List Char) : List (List Char) := pyWordsAux [] s

/-- `self.positive_keywords` (sentiment_tool.py lines 40-46). -/
def positiveKeywords : List (List Char) :=
  ["bullish".toList, "buy".toList, "long".toList, "calls".toList, "moon".toList,
   "rocket".toList, "pump".toList, "rally".toList, "breakout".toList, "surge".toList,
   "strong".toList, "bull".toList, "green".toList, "gains".toList, "profit".toList,
   "outperform".toList, "upgrade".toList, "target".toList, "momentum".toList,
   "squeeze".toList, "diamond hands".toList, "hodl".toList, "accumulate".toList,
   "oversold".toList, "bounce".toList, "support".toList, "catalyst".toList,
   "beat expectations".toList, "revenue growth".toList, "earnings beat".toList,
   "positive guidance".toList]

/-- `self.negative_keywords` (sentiment_tool.py lines 48-54). -/
def negativeKeywords : List (List Char) :=
  ["bearish".toList, "sell".toList, "short".toList, "puts".toList, "crash".toList,
   "dump".toList, "drop".toList, "fall".toList, "breakdown".toList, "bear".toList,
   "red".toList, "losses".toList, "weak".toList, "correction".toList, "decline".toList,
   "underperform".toList, "downgrade".toList, "resistance".toList, "overbought".toList,
   "paper hands".toList, "panic".toList, "capitulation".toList, "bleeding".toList,
   "baghold".toList, "dead cat bounce".toList, "miss estimates".toList,
   "revenue decline".toList, "earnings miss".toList, "negative guidance".toList]

/-- `strong_positive` (line 508). -/
def strongPositive : List (List Char) :=
  ["moon".toList, "rocket".toList, "breakout".toList, "bull".toList, "squeeze".toList]

/-- `strong_negative` (line 509). -/
def strongNegative : List (List Char) :=
  ["crash".toList, "dump".toList, "bear".toList, "breakdown".toList, "panic".toList]

/-- Result dict of one method scorer: `{score, sentiment, confidence, method, ...}`
(keyword-match evidence lists are data pass-throughs and are not modelled). -/
structure MethodResult where
  score : ℚ
  sentiment : Sentiment
  conf : ℚ
  method : String
deriving DecidableEq, Repr

/-- `positive_weight` (lines 501, 504, 511): one per positive keyword found as a
case-insensitive substring, plus an extra 2 per strong positive term found. -/
def kwPosWeight (t : List Char) : ℚ :=
  ((positiveKeywords.filter (fun w => containsSub w (toLowerL t))).length : ℚ)
    + ((strongPositive.filter (fun w => containsSub w (toLowerL t))).length : ℚ) * 2

/-- `negative_weight` (lines 502, 505, 512). -/
def kwNegWeight (t : List Char) : ℚ :=
  ((negativeKeywords.filter (fun w => containsSub w (toLowerL t))).length : ℚ)
    + ((strongNegative.filter (fun w => containsSub w (toLowerL t))).length : ℚ) * 2

/-- `_analyze_financial_keywords` (lines 497-533).  The keyword-match evidence
lists of the result dict are data pass-throughs and are not modelled. -/
def analyzeFinancialKeywords (text : List Char) : Option MethodResult :=
  let positiveWeight := kwPosWeight text
  let negativeWeight := kwNegWeight text
  let totalWeight := positiveWeight + negativeWeight
  if totalWeight = 0 then none
  else
    let rawScore := (positiveWeight - negativeWeight) / pyMax totalWeight 1
    let normalizedScore := clampQ (-1) 1 rawScore
    some { score := normalizedScore
         , sentiment := sentimentOfThr (1/10) (-(1/10)) normalizedScore
         , conf := pyMin (9/10) (totalWeight * (15/100) + 3/10)
         , method := "financial_keywords" }

/-- `['good', 'great', 'amazing', 'wow']` (line 543). -/
def posEmphWords : List (List Char) :=
  ["good".toList, "great".toList, "amazing".toList, "wow".toList]

/-- `['buy', 'long', 'bull', 'moon']` (line 557). -/
def capsPosStems : List (List Char) :=
  ["buy".toList, "long".toList, "bull".toList, "moon".toList]

/-- `['sell', 'short', 'bear', 'crash']` (line 559). -/
def capsNegStems : List (List Char) :=
  ["sell".toList, "short".toList, "bear".toList, "crash".toList]

/-- `emoji_patterns` (lines 564-567); each emoji is a single Unicode scalar. -/
def emojiTable : List (Char × ℚ) :=
  [('🚀', 3/10), ('📈', 2/10), ('💎', 2/10), ('🌙', 3/10), ('💪', 2/10),
   ('📉', -(2/10)), ('💸', -(2/10)), ('😭', -(3/10)), ('🔴', -(2/10)), ('🐻', -(2/10))]

/-- `_analyze_sentiment_patterns` (lines 535-583). -/
def analyzeSentimentPatterns (text : List Char) : MethodResult :=
  let lower := toLowerL text
  let score1 : ℚ :=
    if text.contains '!' then
      let ec : ℚ := (text.count '!' : ℚ)
      if posEmphWords.any (fun w => containsSub w lower) then pyMin (3/10) (ec * (1/10))
      else pyMin (15/100) (ec * (5/100))
    else 0
  let score2 : ℚ :=
    score1 - (if text.contains '?' then pyMin (2/10) ((text.count '?' : ℚ) * (1/10)) else 0)
  let capsWords := (pyWords text).filter (fun w => pyIsUpperWord w && decide (2 < w.length))
  let capsSentiment : ℚ :=
    (capsWords.map (fun w =>
      if capsPosStems.any (fun p => containsSub p (toLowerL w)) then (2/10 : ℚ)
      else if capsNegStems.any (fun p => containsSub p (toLowerL w)) then -(2/10)
      else 0)).sum
  let score3 : ℚ := score2 + (if capsWords.isEmpty then 0 else capsSentiment)
  let score4 : ℚ :=
    score3 + (emojiTable.map (fun e =>
      if text.contains e.1 then e.2 * (text.count e.1 : ℚ) else 0)).sum
  let score := clampQ (-1) 1 score4
  { score := score
  , sentiment := sentimentOfThr (1/10) (-(1/10)) score
  , conf := 4/10
  , method := "pattern_analysis" }

/-- `['now', 'today', 'asap', 'quickly', 'immediately']` (line 612). -/
def urgencyWords : List (List Char) :=
  ["now".toList, "today".toList, "asap".toList, "quickly".toList, "immediately".toList]

/-- `['maybe', 'might', 'could', 'uncertain', 'not sure']` (line 617). -/
def uncertaintyWords : List (List Char) :=
  ["maybe".toList, "might".toList, "could".toList, "uncertain".toList, "not sure".toList]

/-- `['target', 'pt ', 'price target']` (line 600). -/
def targetPhrases : List (List Char) :=
  ["target".toList, "pt ".toList, "price target".toList]

/-- Digit run to a number, for the regex group `(\d+)`. -/
def digitsToNat (ds : List Char) : Nat := ds.foldl (fun n c => n * 10 + (c.toNat - 48)) 0

/-- One attempt of the regex `(\+|\-)?(\d+)%` at the head of `s`; on success
returns the sign group, the numeric value and the rest of the input after the
match.  The `\d+` run must be maximal and immediately followed by `%`, which is
exactly what backtracking yields for this pattern. -/
def matchPercentAt (s : List Char) : Option (Option Char × Nat × List Char) :=
  let signAndRest : Option Char × List Char :=
    match s with
    | '+' :: t => (some '+', t)
    | '-' :: t => (some '-', t)
    | _ => (none, s)
  let ds := signAndRest.2.takeWhile Char.isDigit
  let rest := signAndRest.2.dropWhile Char.isDigit
  if ds.isEmpty then none
  else
    match rest with
    | '%' :: r => some (signAndRest.1, digitsToNat ds, r)
    | _ => none

/-- `re.findall(r'(\+|\-)?(\d+)%', text)`: left-to-right, non-overlapping scan.
The fuel argument (initialised to the input length, which every match or
single-character advance strictly decreases below) makes the recursion
structural; it can never run out before the input does. -/
def findPercentsFuel : Nat → List Char → List (Option Char × Nat)
  | 0, _ => []
  | _ + 1, [] => []
  | n + 1, c :: t =>
      match matchPercentAt (c :: t) with
      | some (sign, v, rest) => (sign, v) :: findPercentsFuel n rest
      | none => findPercentsFuel n t

def findPercents (s : List Char) : List (Option Char × Nat) := findPercentsFuel s.length s

/-- `re.findall(r'\$\d+', text)` is non-empty iff a `$` immediately followed by
a digit occurs in the text. -/
def hasPriceTag : List Char → Bool
  | [] => false
  | '$' :: c :: t => c.isDigit || hasPriceTag (c :: t)
  | _ :: t => hasPriceTag t

/-- `_analyze_context_sentiment` (lines 585-633).  Note the label thresholds
here are ±0.05 (line 626), unlike every other level's ±0.1. -/
def analyzeContextSentiment (text : List Char) : MethodResult :=
  let lower := toLowerL text
  let pricePart : ℚ × ℚ :=
    if text.contains '$' then
      let pct := findPercents text
      if hasPriceTag text || !pct.isEmpty then
        let s1 : ℚ := if targetPhrases.any (fun p => containsSub p lower) then 2/10 else 0
        let s2 : ℚ :=
          (pct.map (fun m =>
            if m.1 = some '+'
                || (containsSub "gain".toList lower || containsSub "up".toList lower) then
              pyMin (3/10) ((m.2 : ℚ) * (1/100))
            else if m.1 = some '-'
                || (containsSub "loss".toList lower || containsSub "down".toList lower) then
              -(pyMin (3/10) ((m.2 : ℚ) * (1/100)))
            else 0)).sum
        (s1 + s2, 3/10 + 1/10)
      else (0, 3/10)
    else (0, 3/10)
  let hasUrg := urgencyWords.any (fun w => containsSub w lower)
  let hasUnc := uncertaintyWords.any (fun w => containsSub w lower)
  let preScore : ℚ := pricePart.1 + (if hasUrg then 1/10 else 0) - (if hasUnc then 1/10 else 0)
  let preConf : ℚ := pricePart.2 - (if hasUnc then 1/10 else 0)
  let score := clampQ (-1) 1 preScore
  let confidence := pyMax (1/10) (pyMin (9/10) preConf)
  { score := score
  , sentiment := sentimentOfThr (5/100) (-(5/100)) score
  , conf := confidence
  , method := "context_analysis" }

/-- Item-level result dict of `_combine_sentiment_scores` / the fallback dict of
`_analyze_advanced_sentiment`. -/
structure ItemResult where
  sentiment : Sentiment
  score : ℚ
  conf : ℚ
  method : String
  componentCount : Nat
  textLength : Nat
deriving DecidableEq, Repr

/-- `_combine_sentiment_scores` (lines 635-673). -/
def combineSentimentScores (ss : List MethodResult) (textLen : Nat) : ItemResult :=
  if ss.isEmpty then
    { sentiment := .neutral, score := 0, conf := 1/10
    , method := "", componentCount := 0, textLength := 0 }
  else
    let totalWeightedScore : ℚ := (ss.map (fun r => r.score * r.conf)).sum
    let totalConfidence : ℚ := (ss.map (fun r => r.conf)).sum
    let p : ℚ × ℚ :=
      if totalConfidence > 0 then
        (totalWeightedScore / totalConfidence,
         pyMin (95/100) (totalConfidence / (ss.length : ℚ)))
      else (0, 1/10)
    { sentiment := sentimentOfThr (1/10) (-(1/10)) p.1
    , score := p.1
    , conf := p.2
    , method := "combined"
    , componentCount := ss.length
    , textLength := textLen }

/-- Whether `c` is kept by the allow-list `re.sub(r'[^\w\s$#@.,!?-]', '', text)`
(ASCII word characters; Unicode word characters are not needed by any claim). -/
def cleanKeepChar (c : Char) : Bool :=
  c.isAlphanum || c = '_' || pyIsSpace c
    || c = '$' || c = '#' || c = '@' || c = '.' || c = ','
    || c = '!' || c = '?' || c = '-'

/-- Characters allowed inside a URL by the removal regex
`http[s]?://(?:[a-zA-Z]|[0-9]|[$-_@.&+]|[!*\\(\\),]|(?:%[0-9a-fA-F][0-9a-fA-F]))+`:
alphanumerics, the byte range `$`..`_`, and `! * \ ( ) ,` (the `%hh` escape
alternative is subsumed by the `$`..`_` range). -/
def urlChar (c : Char) : Bool :=
  c.isAlphanum || (36 ≤ c.toNat && c.toNat ≤ 95)
    || c = '!' || c = '*' || c = '\\' || c = '(' || c = ')' || c = ','

/-- Try the URL regex at the head of `s`: `http` + optional `s` + `://` + one or
more URL characters (consumed greedily); returns the rest after the match. -/
def stripUrlAt (s : List Char) : Option (List Char) :=
  if "https://".toList.isPrefixOf s then
    let t := s.drop 8
    if (t.takeWhile urlChar).isEmpty then none else some (t.dropWhile urlChar)
  else if "http://".toList.isPrefixOf s then
    let t := s.drop 7
    if (t.takeWhile urlChar).isEmpty then none else some (t.dropWhile urlChar)
  else none

/-- `re.sub(url_regex, '', text)`: left-to-right, non-overlapping removal.
Fuel as in `findPercentsFuel`. -/
def removeUrlsFuel : Nat → List Char → List Char
  | 0, s => s
  | _ + 1, [] => []
  | n + 1, c :: t =>
      match stripUrlAt (c :: t) with
      | some rest => removeUrlsFuel n rest
      | none => c :: removeUrlsFuel n t

def removeUrls (s : List Char) : List Char := removeUrlsFuel s.length s

/-- `re.sub(r'\s+', ' ', text)`: collapse whitespace runs to single spaces. -/
def collapseWsAux (prevWs : Bool) : List Char → List Char
  | [] => []
  | c :: t =>
      if pyIsSpace c then
        if prevWs then collapseWsAux true t else ' ' :: collapseWsAux true t
      else c :: collapseWsAux false t

/-- `_clean_text` (lines 484-495): remove URLs, collapse+strip whitespace,
drop characters outside the allow-list. -/
def cleanText (text : List Char) : List Char :=
  (pyStrip (collapseWsAux false (removeUrls text))).filter cleanKeepChar

/-- The scoring part of `_analyze_advanced_sentiment` (lines 447-482), taking
the already-cleaned text `tc = _clean_text(text)` as input. -/
def analyzeAdvancedFromClean (tc : List Char) : Option ItemResult :=
  if tc.isEmpty || decide ((pyStrip tc).length < 5) then none
  else
    let scores :=
      (match analyzeFinancialKeywords tc with
       | some r => [r]
       | none => []) ++ [analyzeSentimentPatterns tc, analyzeContextSentiment tc]
    some (if scores.isEmpty then
            { sentiment := .neutral, score := 0, conf := 1/10
            , method := "fallback", componentCount := 0, textLength := 0 }
          else combineSentimentScores scores tc.length)

/-- `_analyze_advanced_sentiment` on the raw text. -/
def analyzeAdvancedSentiment (text : List Char) : Option ItemResult :=
  analyzeAdvancedFromClean (cleanText text)

/-- One item-level sentiment as consumed by `_calculate_weighted_sentiment`:
the combined dict updated with its originating `source` (lines 133-138). -/
structure ItemSentiment where
  score : ℚ
  conf : ℚ
  sentiment : Sentiment
  source : String
deriving DecidableEq, Repr

/-- `source_weights` lookup with default 0.5 (lines 749-756, 766). -/
def sourceWeight (s : String) : ℚ :=
  if s = "news_api" then 1
  else if s = "alpha_vantage_news" then 9/10
  else if s = "rss_financial" then 8/10
  else if s = "twitter_search" then 7/10
  else if s = "market_sentiment" then 6/10
  else if s = "twitter_alternative" then 7/10
  else 1/2

/-- `final_weight = source_weight * confidence` (line 767). -/
def effectiveWeight (i : ItemSentiment) : ℚ := sourceWeight i.source * i.conf

/-- Result dict of `_calculate_weighted_sentiment`.  The empty-input early
return (line 746) carries no `sample_size` key; we record 0 there. -/
structure WeightedResult where
  score : ℚ
  sentiment : Sentiment
  conf : ℚ
  sampleSize : Nat
deriving DecidableEq, Repr

/-- `_calculate_weighted_sentiment` (lines 743-792). -/
def calcWeightedSentiment (items : List ItemSentiment) : WeightedResult :=
  if items.isEmpty then { score := 0, sentiment := .neutral, conf := 0, sampleSize := 0 }
  else
    let totalWeightedScore : ℚ := (items.map (fun i => i.score * effectiveWeight i)).sum
    let totalWeight : ℚ := (items.map effectiveWeight).sum
    let p : ℚ × ℚ :=
      if totalWeight > 0 then
        (totalWeightedScore / totalWeight, pyMin (9/10) (totalWeight / (items.length : ℚ)))
      else (0, 1/10)
    { score := p.1
    , sentiment := sentimentOfThr (1/10) (-(1/10)) p.1
    , conf := p.2
    , sampleSize := items.length }

/-- One entry of `results['profile_results']`: either an error dict (with its
`content_count`, defaulting to 0 where the source omits the key) or a valid
dict `{content_count, average_sentiment, ...}` (distribution and sample fields
are pass-throughs and not modelled). -/
inductive ProfileEntry where
  | err (msg : List Char) (contentCount : Nat)
  | ok (contentCount : Nat) (avg : WeightedResult)
deriving DecidableEq, Repr

/-- Result dict of `_calculate_overall_sentiment`. -/
structure OverallResult where
  score : ℚ
  sentiment : Sentiment
  conf : ℚ
  profilesAnalyzed : Nat
  totalContent : Nat
deriving DecidableEq, Repr

/-- The `valid_profiles` selection (lines 813-824): entries without an error,
with an `average_sentiment`, and with `content_count > 0`; each contributes
`(score, confidence, content_count)`. -/
def validProfiles (entries : List ProfileEntry) : List (ℚ × ℚ × Nat) :=
  entries.filterMap (fun e =>
    match e with
    | .ok c avg => if 0 < c then some (avg.score, avg.conf, c) else none
    | .err _ _ => none)

/-- `_calculate_overall_sentiment` (lines 809-869). -/
def calcOverallSentiment (entries : List ProfileEntry) : OverallResult :=
  let valid := validProfiles entries
  if valid.isEmpty then
    { score := 0, sentiment := .neutral, conf := 0, profilesAnalyzed := 0, totalContent := 0 }
  else
    let totalWeightedScore : ℚ := (valid.map (fun v => v.1 * ((v.2.2 : ℚ) * v.2.1))).sum
    let totalWeight : ℚ := (valid.map (fun v => (v.2.2 : ℚ) * v.2.1)).sum
    let totalContent : Nat := (valid.map (fun v => v.2.2)).sum
    let overallScore : ℚ := if totalWeight > 0 then totalWeightedScore / totalWeight else 0
    { score := overallScore
    , sentiment := sentimentOfThr (1/10) (-(1/10)) overallScore
    , conf := pyMin (9/10) (((totalContent : ℚ) / 50) * (1/2) + 3/10)
    , profilesAnalyzed := valid.length
    , totalContent := totalContent }

/-- One fetched content piece `{text, source, ...}` as delivered by the content
suppliers (news/RSS/financial/Twitter getters). -/
structure ContentRecord where
  text : List Char
  source : String
deriving DecidableEq, Repr

/-- Outcome of the content-supplier phase for one profile (lines 84-117):
either an exception propagating to the per-profile handler, or the collected
`all_content` list. -/
inductive FetchOutcome where
  | raises (msg : List Char)
  | content (items : List ContentRecord)

def noContentMsg : List Char := "No content sources available".toList

def noSentimentMsg : List Char := "Failed to analyze sentiment from available content".toList

/-- The body of the per-profile loop of `analyze_profiles_sentiment`
(lines 79-160): classify the supplier outcome into the profile's result entry. -/
def analyzeOneProfile : FetchOutcome → ProfileEntry
  | .raises m => .err m 0
  | .content items =>
      if items.isEmpty then .err noContentMsg 0
      else
        let sentiments := items.filterMap (fun c =>
          (analyzeAdvancedSentiment c.text).map
            (fun r => ItemSentiment.mk r.score r.conf r.sentiment c.source))
        if sentiments.isEmpty then .err noSentimentMsg items.length
        else .ok sentiments.length (calcWeightedSentiment sentiments)

/-- The dict key used for a profile's entry: the raw name in the exception
handler (line 160), the `@`-stripped name everywhere else (line 81). -/
def profileKey (p : List Char) : FetchOutcome → List Char
  | .raises _ => p
  | .content _ => pyLstripAt p

/-- The caller-facing results of `analyze_profiles_sentiment` (fields touched
by the claims: `profile_results`, `overall_sentiment`, `errors`). -/
structure AnalysisResults where
  profileResults : List (List Char × ProfileEntry)
  overall : OverallResult
  errors : List (List Char)

/-- `analyze_profiles_sentiment` (lines 56-169), with the content-supplier
phase abstracted as `f`: each profile is processed independently by the loop
body, the overall sentiment is computed from all entries, and supplier
exceptions are appended to `results['errors']` (line 159). -/
def analyzeProfilesSentimentModel
    (ps : List (List Char)) (f : List Char → FetchOutcome) : AnalysisResults :=
  let pr := ps.map (fun p => (profileKey p (f p), analyzeOneProfile (f p)))
  { profileResults := pr
  , overall := calcOverallSentiment (pr.map Prod.snd)
  , errors := ps.filterMap (fun p =>
      match f p with
      | .raises m => some ("Profile ".toList ++ p ++ ": ".toList ++ m)
      | .content _ => none) }

/-- `_is_cache_fresh` (lines 878-884), in seconds:
`datetime.now() - fromtimestamp(mtime) < timedelta(hours=hours)`. -/
def isCacheFresh (now mtime hours : ℚ) : Bool := decide (now - mtime < hours * 3600)

/-- The cache directory contents: file key ↦ mtime. -/
structure CacheStore where
  files : List (String × ℚ)
deriving DecidableEq, Repr

/-- The cache-relevant trace of one `analyze_profiles_sentiment` call at time
`now`: the function unconditionally invokes the content fetchers (lines
88-111) — it contains no cache read and `_is_cache_fresh` has no call site in
sentiment_tool.py — and then unconditionally writes a cache file via
`_cache_results` (line 166).  Returns the number of fetch invocations this
call performs together with the new cache state. -/
def analyzeCallCacheTrace (st : CacheStore) (key : String) (now : ℚ) : Nat × CacheStore :=
  (1, ⟨(key, now) :: st.files⟩)

/-- Total fetch invocations across two consecutive analysis calls for the same
key at times `t1` and `t2`, starting from an empty cache. -/
def twoCallFetchTotal (key : String) (t1 t2 : ℚ) : Nat :=
  (analyzeCallCacheTrace ⟨[]⟩ key t1).1
    + (analyzeCallCacheTrace (analyzeCallCacheTrace ⟨[]⟩ key t1).2 key t2).1

end SentimentTool

namespace SentimentTool

theorem pyMin_eq_min (a b : ℚ) : pyMin a b = min a b := by
  rw [pyMin, min_def]

theorem pyMax_eq_max (a b : ℚ) : pyMax a b = max a b := by
  unfold pyMax
  rcases le_or_lt b a with h | h
  · rcases eq_or_lt_of_le h with rfl | hlt
    · simp
    · rw [if_pos h, max_eq_left h]
  · rw [if_neg (not_le.mpr h), max_eq_right h.le]

theorem clampQ_mem (lo hi x : ℚ) (h : lo ≤ hi) :
    lo ≤ clampQ lo hi x ∧ clampQ lo hi x ≤ hi := by
  rw [clampQ, pyMax_eq_max, pyMin_eq_min]
  exact ⟨le_max_left _ _, max_le h (min_le_left _ _)⟩

/-- The single labeling rule of the spec, with its thresholds as parameters:
`sent` is positive iff the score exceeds `posT`, negative iff it is below
`negT`, and neutral otherwise. -/
def LabelConsistent (posT negT s : ℚ) (sent : Sentiment) : Prop :=
  (sent = .positive ↔ s > posT) ∧ (sent = .negative ↔ s < negT) ∧
    (sent = .neutral ↔ ¬s > posT ∧ ¬s < negT)

theorem labelConsistent_sentimentOfThr (posT negT s : ℚ) (h : negT ≤ posT) :
    LabelConsistent posT negT s (sentimentOfThr posT negT s) := by
  unfold LabelConsistent sentimentOfThr
  by_cases h1 : s > posT
  · have h2 : ¬s < negT := not_lt.mpr (le_trans h (le_of_lt h1))
    simp [h1, h2]
  · by_cases h2 : s < negT
    · simp [h1, h2]
    · simp [h1, h2]

theorem labelConsistent_neutral_zero (posT negT : ℚ) (h1 : 0 ≤ posT) (h2 : negT ≤ 0) :
    LabelConsistent posT negT 0 .neutral := by
  unfold LabelConsistent
  simp [not_lt.mpr h1, not_lt.mpr h2]

theorem keyword_label (t : List Char) (r : MethodResult)
    (h : analyzeFinancialKeywords t = some r) :
    LabelConsistent (1/10) (-(1/10)) r.score r.sentiment := by
  simp only [analyzeFinancialKeywords] at h
  split at h
  · exact absurd h (by simp)
  · rw [Option.some.injEq] at h
    subst h
    exact labelConsistent_sentimentOfThr _ _ _ (by norm_num)

theorem pattern_label (t : List Char) :
    LabelConsistent (1/10) (-(1/10)) (analyzeSentimentPatterns t).score
      (analyzeSentimentPatterns t).sentiment := by
  simp only [analyzeSentimentPatterns]
  exact labelConsistent_sentimentOfThr _ _ _ (by norm_num)

theorem context_label (t : List Char) :
    LabelConsistent (5/100) (-(5/100)) (analyzeContextSentiment t).score
      (analyzeContextSentiment t).sentiment := by
  simp only [analyzeContextSentiment]
  exact labelConsistent_sentimentOfThr _ _ _ (by norm_num)

theorem combine_label (ss : List MethodResult) (n : Nat) :
    LabelConsistent (1/10) (-(1/10)) (combineSentimentScores ss n).score
      (combineSentimentScores ss n).sentiment := by
  simp only [combineSentimentScores]
  split
  · exact labelConsistent_neutral_zero _ _ (by norm_num) (by norm_num)
  · exact labelConsistent_sentimentOfThr _ _ _ (by norm_num)

theorem weighted_label (items : List ItemSentiment) :
    LabelConsistent (1/10) (-(1/10)) (calcWeightedSentiment items).score
      (calcWeightedSentiment items).sentiment := by
  simp only [calcWeightedSentiment]
  split
  · exact labelConsistent_neutral_zero _ _ (by norm_num) (by norm_num)
  · exact labelConsistent_sentimentOfThr _ _ _ (by norm_num)

theorem overall_label (entries : List ProfileEntry) :
    LabelConsistent (1/10) (-(1/10)) (calcOverallSentiment entries).score
      (calcOverallSentiment entries).sentiment := by
  simp only [calcOverallSentiment]
  split
  · exact labelConsistent_neutral_zero _ _ (by norm_num) (by norm_num)
  · exact labelConsistent_sentimentOfThr _ _ _ (by norm_num)

end SentimentTool

namespace SentimentTool

/-- Concrete evaluation of the keyword scorer on "moon": the strong positive
term 'moon' weighs 1 + 2 = 3, so score = 3/3 = 1, confidence = min(0.9, 0.75). -/
theorem kw_moon_eval :
    analyzeFinancialKeywords "moon".toList =
      some { score := 1, sentiment := .positive, conf := 3/4, method := "financial_keywords" } := by
  have hp : positiveKeywords.filter (fun w => containsSub w (toLowerL "moon".toList))
      = ["moon".toList] := by rfl
  have hn : negativeKeywords.filter (fun w => containsSub w (toLowerL "moon".toList))
      = [] := by rfl
  have hsp : strongPositive.filter (fun w => containsSub w (toLowerL "moon".toList))
      = ["moon".toList] := by rfl
  have hsn : strongNegative.filter (fun w => containsSub w (toLowerL "moon".toList))
      = [] := by rfl
  simp only [analyzeFinancialKeywords, kwPosWeight, kwNegWeight, hp, hn, hsp, hsn,
    List.length_cons, List.length_nil]
  norm_num [clampQ, pyMin, pyMax, sentimentOfThr]

/-- C1 (counterexample): the contextual scorer derives its label with thresholds
±0.05 (source line 626), not ±0.1.  On "buy now please" it produces the pair
{score = 0.1, sentiment = positive}, while the claimed invariant requires
`sentiment = positive ⟺ score > 0.1`, i.e. neutral at exactly 0.1. -/
theorem C1_counterexample :
    (analyzeContextSentiment "buy now please".toList).sentiment = Sentiment.positive ∧
    ¬((analyzeContextSentiment "buy now please".toList).score > 1/10) := by
  have h : analyzeContextSentiment "buy now please".toList =
      { score := 1/10, sentiment := .positive, conf := 3/10, method := "context_analysis" } := by
    have hd : ("buy now please".toList).contains '$' = false := by rfl
    have hu : urgencyWords.any (fun w => containsSub w (toLowerL "buy now please".toList))
        = true := by rfl
    have hc : uncertaintyWords.any (fun w => containsSub w (toLowerL "buy now please".toList))
        = false := by rfl
    simp only [analyzeContextSentiment, hd, hu, hc, Bool.false_eq_true, if_false, if_true]
    norm_num [clampQ, pyMin, pyMax, sentimentOfThr]
  rw [h]
  norm_num

/-- C1 (amended): every {score, sentiment} pair is derived by the single
labeling rule with thresholds ±0.1 — at the keyword scorer, the pattern
scorer, the item-level combination, the subject-level weighted average and
the batch-level overall result — except the contextual scorer, which uses
thresholds ±0.05. -/
theorem C1_label_consistency :
    (∀ t r, analyzeFinancialKeywords t = some r →
      LabelConsistent (1/10) (-(1/10)) r.score r.sentiment) ∧
    (∀ t, LabelConsistent (1/10) (-(1/10)) (analyzeSentimentPatterns t).score
      (analyzeSentimentPatterns t).sentiment) ∧
    (∀ t, LabelConsistent (5/100) (-(5/100)) (analyzeContextSentiment t).score
      (analyzeContextSentiment t).sentiment) ∧
    (∀ ss n, LabelConsistent (1/10) (-(1/10)) (combineSentimentScores ss n).score
      (combineSentimentScores ss n).sentiment) ∧
    (∀ items, LabelConsistent (1/10) (-(1/10)) (calcWeightedSentiment items).score
      (calcWeightedSentiment items).sentiment) ∧
    (∀ entries, LabelConsistent (1/10) (-(1/10)) (calcOverallSentiment entries).score
      (calcOverallSentiment entries).sentiment) :=
  ⟨keyword_label, pattern_label, context_label, combine_label, weighted_label, overall_label⟩

/-- Witness for C1: the keyword scorer on "moon" returns score 1 labelled
positive, and the label rule holds there. -/
theorem C1_witness :
    analyzeFinancialKeywords "moon".toList =
      some { score := 1, sentiment := .positive, conf := 3/4, method := "financial_keywords" } ∧
    LabelConsistent (1/10) (-(1/10)) (1 : ℚ) Sentiment.positive := by
  exact ⟨kw_moon_eval, by simpa using C1_label_consistency.1 "moon".toList _ kw_moon_eval⟩

/-- C6: `analyze_profiles_sentiment` performs no cache read — `_is_cache_fresh`
has no call site — so a second call for the same key within the 2-hour TTL
(here one hour later, with the first call's cache file fresh by the code's own
freshness predicate) still invokes the content fetchers: two fetches across
the two calls, contradicting "at most once". -/
theorem C6_cache_never_read :
    twoCallFetchTotal "sentiment_elonmusk" 0 3600 = 2 ∧
    isCacheFresh 3600 0 2 = true ∧ ¬((2 : Nat) ≤ 1) := by
  refine ⟨rfl, ?_, by norm_num⟩
  norm_num [isCacheFresh]

end SentimentTool

namespace SentimentTool

/-- C2 (counterexample): with a single method score of confidence 0, the code
returns score 0 and confidence 0.1 (lines 654-656), not the claimed unweighted
mean (here 1) with confidence min(0.95, 0/1) = 0. -/
theorem C2_counterexample :
    (combineSentimentScores [⟨1, .positive, 0, "x"⟩] 5).score = 0 ∧
    (combineSentimentScores [⟨1, .positive, 0, "x"⟩] 5).conf = 1/10 ∧
    (combineSentimentScores [⟨1, .positive, 0, "x"⟩] 5).score ≠
      (([⟨1, .positive, 0, "x"⟩] : List MethodResult).map (fun r => r.score)).sum
        / (([⟨1, .positive, 0, "x"⟩] : List MethodResult).length : ℚ) ∧
    (combineSentimentScores [⟨1, .positive, 0, "x"⟩] 5).conf ≠
      pyMin (95/100) ((([⟨1, .positive, 0, "x"⟩] : List MethodResult).map (fun r => r.conf)).sum
        / (([⟨1, .positive, 0, "x"⟩] : List MethodResult).length : ℚ)) := by
  norm_num [combineSentimentScores, pyMin]

/-- C2 (amended): for a non-empty sequence of method scores, if the total
confidence is positive the combined score is the confidence-weighted mean and
the confidence is min(0.95, Σconfᵢ / method_count); if the total confidence is
zero the result is score 0 with confidence 0.1 (not the unweighted mean). -/
theorem C2_combine_postcondition (ss : List MethodResult) (n : Nat) (hne : ss ≠ []) :
    (0 < (ss.map (fun r => r.conf)).sum →
      (combineSentimentScores ss n).score
        = (ss.map (fun r => r.score * r.conf)).sum / (ss.map (fun r => r.conf)).sum ∧
      (combineSentimentScores ss n).conf
        = pyMin (95/100) ((ss.map (fun r => r.conf)).sum / (ss.length : ℚ))) ∧
    ((ss.map (fun r => r.conf)).sum = 0 →
      (combineSentimentScores ss n).score = 0 ∧
      (combineSentimentScores ss n).conf = 1/10) := by
  have hE : ss.isEmpty = false := by
    cases ss with
    | nil => exact absurd rfl hne
    | cons a t => rfl
  constructor
  · intro hpos
    simp only [combineSentimentScores, hE, Bool.false_eq_true, if_false, if_pos hpos]
    exact ⟨trivial, trivial⟩
  · intro hz
    have hneg : ¬((ss.map (fun r => r.conf)).sum > 0) := by rw [hz]; norm_num
    simp only [combineSentimentScores, hE, Bool.false_eq_true, if_false, if_neg hneg]
    exact ⟨trivial, trivial⟩

/-- Witness for C2 at a concrete one-element input with positive confidence. -/
theorem C2_witness :
    ([⟨1/2, Sentiment.positive, 1/2, "m"⟩] : List MethodResult) ≠ [] ∧
    (0 : ℚ) < (([⟨1/2, .positive, 1/2, "m"⟩] : List MethodResult).map (fun r => r.conf)).sum ∧
    (combineSentimentScores [⟨1/2, .positive, 1/2, "m"⟩] 7).score
      = (([⟨1/2, .positive, 1/2, "m"⟩] : List MethodResult).map (fun r => r.score * r.conf)).sum
        / (([⟨1/2, .positive, 1/2, "m"⟩] : List MethodResult).map (fun r => r.conf)).sum := by
  refine ⟨by simp, by norm_num, ?_⟩
  exact ((C2_combine_postcondition [⟨1/2, .positive, 1/2, "m"⟩] 7 (by simp)).1 (by norm_num)).1

theorem strongPositive_subset : ∀ w ∈ strongPositive, w ∈ positiveKeywords := by decide

theorem strongNegative_subset : ∀ w ∈ strongNegative, w ∈ negativeKeywords := by decide

/-- The scorer's total weight is zero exactly when no keyword of either list
occurs in the lowered text (the strong subsets are subsets of the lists). -/
theorem kw_total_zero_iff (t : List Char) :
    kwPosWeight t + kwNegWeight t = 0 ↔
      positiveKeywords.filter (fun w => containsSub w (toLowerL t)) = [] ∧
      negativeKeywords.filter (fun w => containsSub w (toLowerL t)) = [] := by
  unfold kwPosWeight kwNegWeight
  constructor
  · intro h
    have c1 : (0:ℚ) ≤ ((positiveKeywords.filter (fun w => containsSub w (toLowerL t))).length : ℚ) :=
      Nat.cast_nonneg _
    have c2 : (0:ℚ) ≤ ((strongPositive.filter (fun w => containsSub w (toLowerL t))).length : ℚ) :=
      Nat.cast_nonneg _
    have c3 : (0:ℚ) ≤ ((negativeKeywords.filter (fun w => containsSub w (toLowerL t))).length : ℚ) :=
      Nat.cast_nonneg _
    have c4 : (0:ℚ) ≤ ((strongNegative.filter (fun w => containsSub w (toLowerL t))).length : ℚ) :=
      Nat.cast_nonneg _
    constructor
    · have : ((positiveKeywords.filter (fun w => containsSub w (toLowerL t))).length : ℚ) = 0 := by
        linarith
      rw [Nat.cast_eq_zero, List.length_eq_zero] at this
      exact this
    · have : ((negativeKeywords.filter (fun w => containsSub w (toLowerL t))).length : ℚ) = 0 := by
        linarith
      rw [Nat.cast_eq_zero, List.length_eq_zero] at this
      exact this
  · rintro ⟨h1, h2⟩
    have hs1 : strongPositive.filter (fun w => containsSub w (toLowerL t)) = [] := by
      rw [List.filter_eq_nil_iff] at h1 ⊢
      exact fun w hw => h1 w (strongPositive_subset w hw)
    have hs2 : strongNegative.filter (fun w => containsSub w (toLowerL t)) = [] := by
      rw [List.filter_eq_nil_iff] at h2 ⊢
      exact fun w hw => h2 w (strongNegative_subset w hw)
    simp [h1, h2, hs1, hs2]

/-- C3 (counterexample): on "moon sell" the strong positive term 'moon' weighs
1 + 2 = 3 (triple), giving score (3-1)/4 = 1/2, while under the claimed double
counting ('moon' weighing 2, 'sell' weighing 1) the score would be
(2-1)/max(3,1) = 1/3. -/
theorem C3_counterexample :
    (analyzeFinancialKeywords "moon sell".toList).map MethodResult.score = some (1/2) ∧
    ((1:ℚ)/2) ≠ (2 - 1) / pyMax (2 + 1) 1 := by
  have hp : positiveKeywords.filter (fun w => containsSub w (toLowerL "moon sell".toList))
      = ["moon".toList] := by rfl
  have hn : negativeKeywords.filter (fun w => containsSub w (toLowerL "moon sell".toList))
      = ["sell".toList] := by rfl
  have hsp : strongPositive.filter (fun w => containsSub w (toLowerL "moon sell".toList))
      = ["moon".toList] := by rfl
  have hsn : strongNegative.filter (fun w => containsSub w (toLowerL "moon sell".toList))
      = [] := by rfl
  constructor
  · simp only [analyzeFinancialKeywords, kwPosWeight, kwNegWeight, hp, hn, hsp, hsn,
      List.length_cons, List.length_nil]
    norm_num [clampQ, pyMin, pyMax, sentimentOfThr]
  · norm_num [pyMax]

/-- C3 (amended): the keyword scorer counts case-insensitive substring matches,
with strong terms counting triple (once as a match plus an extra weight of 2);
it returns null exactly when no term of either set is found, and otherwise
score = clamp((pos-neg)/max(pos+neg,1), -1, 1) with confidence
min(0.9, (pos+neg)·0.15 + 0.3) ∈ [0.3, 0.9]. -/
theorem C3_keyword_postcondition (t : List Char) :
    (analyzeFinancialKeywords t = none ↔
      positiveKeywords.filter (fun w => containsSub w (toLowerL t)) = [] ∧
      negativeKeywords.filter (fun w => containsSub w (toLowerL t)) = []) ∧
    (∀ r, analyzeFinancialKeywords t = some r →
      r.score = clampQ (-1) 1 ((kwPosWeight t - kwNegWeight t)
          / pyMax (kwPosWeight t + kwNegWeight t) 1) ∧
      r.conf = pyMin (9/10) ((kwPosWeight t + kwNegWeight t) * (15/100) + 3/10) ∧
      3/10 ≤ r.conf ∧ r.conf ≤ 9/10) := by
  have hposW : 0 ≤ kwPosWeight t := by
    unfold kwPosWeight; positivity
  have hnegW : 0 ≤ kwNegWeight t := by
    unfold kwNegWeight; positivity
  constructor
  · rw [analyzeFinancialKeywords, ← kw_total_zero_iff t]
    by_cases hz : kwPosWeight t + kwNegWeight t = 0
    · simp [hz]
    · simp [hz]
  · intro r h
    rw [analyzeFinancialKeywords] at h
    split at h
    · exact absurd h (by simp)
    · rw [Option.some.injEq] at h
      subst h
      refine ⟨rfl, rfl, ?_, ?_⟩
      · rw [pyMin_eq_min]
        refine le_min (by norm_num) ?_
        nlinarith
      · rw [pyMin_eq_min]
        exact min_le_left _ _

/-- Witness for C3 at "moon". -/
theorem C3_witness :
    analyzeFinancialKeywords "moon".toList =
      some { score := 1, sentiment := .positive, conf := 3/4, method := "financial_keywords" } ∧
    (1:ℚ) = clampQ (-1) 1 ((kwPosWeight "moon".toList - kwNegWeight "moon".toList)
        / pyMax (kwPosWeight "moon".toList + kwNegWeight "moon".toList) 1) := by
  refine ⟨kw_moon_eval, ?_⟩
  have h := (C3_keyword_postcondition "moon".toList).2 _ kw_moon_eval
  simpa using h.1

end SentimentTool

namespace SentimentTool

/-- C4: the subject aggregator weighs each item by
reliability_weight(source) · confidence; an empty input yields the fixed
zero/neutral result (deterministically, the function being pure); a non-empty
input with zero total effective weight yields score 0 and confidence 0.1
rather than an error; with positive total weight the score is the weighted
mean. -/
theorem C4_subject_fallbacks (items : List ItemSentiment) :
    (calcWeightedSentiment [] =
      { score := 0, sentiment := .neutral, conf := 0, sampleSize := 0 }) ∧
    (items ≠ [] → (items.map effectiveWeight).sum = 0 →
      (calcWeightedSentiment items).score = 0 ∧
      (calcWeightedSentiment items).conf = 1/10) ∧
    (0 < (items.map effectiveWeight).sum →
      (calcWeightedSentiment items).score
        = (items.map (fun i => i.score * effectiveWeight i)).sum
          / (items.map effectiveWeight).sum) := by
  refine ⟨rfl, ?_, ?_⟩
  · intro hne hz
    have hE : items.isEmpty = false := by
      cases items with
      | nil => exact absurd rfl hne
      | cons a t => rfl
    have hneg : ¬((items.map effectiveWeight).sum > 0) := by rw [hz]; norm_num
    simp only [calcWeightedSentiment, hE, Bool.false_eq_true, if_false, if_neg hneg]
    exact ⟨trivial, trivial⟩
  · intro hpos
    have hne : items ≠ [] := by
      intro h
      subst h
      simp at hpos
    have hE : items.isEmpty = false := by
      cases items with
      | nil => exact absurd rfl hne
      | cons a t => rfl
    simp only [calcWeightedSentiment, hE, Bool.false_eq_true, if_false, if_pos hpos]

/-- Witness for C4 at a single news_api item of confidence 1/2. -/
theorem C4_witness :
    ([⟨1/2, 1/2, Sentiment.positive, "news_api"⟩] : List ItemSentiment) ≠ [] ∧
    (0:ℚ) < (([⟨1/2, 1/2, .positive, "news_api"⟩] : List ItemSentiment).map effectiveWeight).sum ∧
    (calcWeightedSentiment [⟨1/2, 1/2, .positive, "news_api"⟩]).score
      = (([⟨1/2, 1/2, .positive, "news_api"⟩] : List ItemSentiment).map
          (fun i => i.score * effectiveWeight i)).sum
        / (([⟨1/2, 1/2, .positive, "news_api"⟩] : List ItemSentiment).map effectiveWeight).sum := by
  refine ⟨by simp, by norm_num [effectiveWeight, sourceWeight], ?_⟩
  exact (C4_subject_fallbacks [⟨1/2, 1/2, .positive, "news_api"⟩]).2.2
    (by norm_num [effectiveWeight, sourceWeight])

/-- C5 (counterexample): with no participating subject the code returns
confidence 0 (line 831), while the claimed formula min(0.9, (0/50)·0.5+0.3)
gives 0.3. -/
theorem C5_counterexample :
    (calcOverallSentiment [ProfileEntry.err "no content".toList 0]).conf = 0 ∧
    (calcOverallSentiment [ProfileEntry.err "no content".toList 0]).conf
      ≠ pyMin (9/10)
        ((((calcOverallSentiment [ProfileEntry.err "no content".toList 0]).totalContent : ℚ) / 50)
          * (1/2) + 3/10) := by
  have h : calcOverallSentiment [ProfileEntry.err "no content".toList 0]
      = { score := 0, sentiment := .neutral, conf := 0
        , profilesAnalyzed := 0, totalContent := 0 } := rfl
  rw [h]
  norm_num [pyMin]

/-- C5 (amended): only subjects with a positive item count participate; with at
least one participant the score is the item_count·confidence-weighted mean (0
when the total weight is 0), the confidence is min(0.9, (Σitem_count/50)·0.5+0.3)
over the participants, and subjects_analyzed counts the participants; with no
participant the result is the fixed zero record (confidence 0, not 0.3). -/
theorem C5_batch_postcondition (entries : List ProfileEntry) :
    (∀ v ∈ validProfiles entries, 0 < v.2.2) ∧
    (validProfiles entries = [] →
      calcOverallSentiment entries =
        { score := 0, sentiment := .neutral, conf := 0
        , profilesAnalyzed := 0, totalContent := 0 }) ∧
    (validProfiles entries ≠ [] →
      (0 < ((validProfiles entries).map (fun v => (v.2.2 : ℚ) * v.2.1)).sum →
        (calcOverallSentiment entries).score
          = ((validProfiles entries).map (fun v => v.1 * ((v.2.2 : ℚ) * v.2.1))).sum
            / ((validProfiles entries).map (fun v => (v.2.2 : ℚ) * v.2.1)).sum) ∧
      (((validProfiles entries).map (fun v => (v.2.2 : ℚ) * v.2.1)).sum = 0 →
        (calcOverallSentiment entries).score = 0) ∧
      (calcOverallSentiment entries).conf
        = pyMin (9/10) ((((((validProfiles entries).map (fun v => v.2.2)).sum : Nat) : ℚ) / 50)
            * (1/2) + 3/10) ∧
      (calcOverallSentiment entries).profilesAnalyzed = (validProfiles entries).length) := by
  refine ⟨?_, ?_, ?_⟩
  · intro v hv
    simp only [validProfiles, List.mem_filterMap] at hv
    obtain ⟨e, _, hfe⟩ := hv
    cases e with
    | err m c => simp at hfe
    | ok c avg =>
        dsimp only at hfe
        by_cases hc : 0 < c
        · rw [if_pos hc, Option.some.injEq] at hfe
          subst hfe
          exact hc
        · rw [if_neg hc] at hfe
          exact absurd hfe (by simp)
  · intro hz
    have hE : (validProfiles entries).isEmpty = true := by rw [hz]; rfl
    simp only [calcOverallSentiment, hE, if_true]
  · intro hne
    have hE : (validProfiles entries).isEmpty = false := by
      cases h : validProfiles entries with
      | nil => exact absurd h hne
      | cons a t => rfl
    refine ⟨?_, ?_, ?_, ?_⟩
    · intro hpos
      simp only [calcOverallSentiment, hE, Bool.false_eq_true, if_false, if_pos hpos]
    · intro hz
      have hneg : ¬(((validProfiles entries).map (fun v => (v.2.2 : ℚ) * v.2.1)).sum > 0) := by
        rw [hz]; norm_num
      simp only [calcOverallSentiment, hE, Bool.false_eq_true, if_false, if_neg hneg]
    · simp only [calcOverallSentiment, hE, Bool.false_eq_true, if_false]
    · simp only [calcOverallSentiment, hE, Bool.false_eq_true, if_false]

/-- Witness for C5 at a single participating subject. -/
theorem C5_witness :
    validProfiles [ProfileEntry.ok 10 ⟨1/2, .positive, 7/10, 10⟩] ≠ [] ∧
    (calcOverallSentiment [ProfileEntry.ok 10 ⟨1/2, .positive, 7/10, 10⟩]).profilesAnalyzed
      = (validProfiles [ProfileEntry.ok 10 ⟨1/2, .positive, 7/10, 10⟩]).length := by
  have hv : validProfiles [ProfileEntry.ok 10 ⟨1/2, .positive, 7/10, 10⟩]
      = [(1/2, 7/10, 10)] := rfl
  have hne : validProfiles [ProfileEntry.ok 10 ⟨1/2, .positive, 7/10, 10⟩] ≠ [] := by
    rw [hv]
    exact List.cons_ne_nil _ _
  exact ⟨hne, ((C5_batch_postcondition _).2.2 hne).2.2.2⟩

end SentimentTool

namespace SentimentTool

theorem sum_map_nonneg {α : Type} (l : List α) (f : α → ℚ) (h : ∀ a ∈ l, 0 ≤ f a) :
    0 ≤ (l.map f).sum := by
  induction l with
  | nil => simp
  | cons x t ih =>
      simp only [List.map_cons, List.sum_cons]
      have h1 := h x (by simp)
      have h2 := ih (fun a ha => h a (by simp [ha]))
      linarith

theorem dot_le_sum {α : Type} (l : List α) (s w : α → ℚ)
    (hs : ∀ a ∈ l, s a ≤ 1) (hw : ∀ a ∈ l, 0 ≤ w a) :
    (l.map (fun a => s a * w a)).sum ≤ (l.map w).sum := by
  induction l with
  | nil => simp
  | cons x t ih =>
      simp only [List.map_cons, List.sum_cons]
      have h1 : s x * w x ≤ w x := by nlinarith [hs x (by simp), hw x (by simp)]
      have h2 := ih (fun a ha => hs a (by simp [ha])) (fun a ha => hw a (by simp [ha]))
      linarith

theorem neg_sum_le_dot {α : Type} (l : List α) (s w : α → ℚ)
    (hs : ∀ a ∈ l, -1 ≤ s a) (hw : ∀ a ∈ l, 0 ≤ w a) :
    -(l.map w).sum ≤ (l.map (fun a => s a * w a)).sum := by
  induction l with
  | nil => simp
  | cons x t ih =>
      simp only [List.map_cons, List.sum_cons]
      have h1 : -(w x) ≤ s x * w x := by nlinarith [hs x (by simp), hw x (by simp)]
      have h2 := ih (fun a ha => hs a (by simp [ha])) (fun a ha => hw a (by simp [ha]))
      linarith

theorem weighted_mean_mem {α : Type} (l : List α) (s w : α → ℚ)
    (hs : ∀ a ∈ l, -1 ≤ s a ∧ s a ≤ 1) (hw : ∀ a ∈ l, 0 ≤ w a)
    (hpos : 0 < (l.map w).sum) :
    -1 ≤ (l.map (fun a => s a * w a)).sum / (l.map w).sum ∧
      (l.map (fun a => s a * w a)).sum / (l.map w).sum ≤ 1 := by
  constructor
  · rw [le_div_iff₀ hpos]
    have := neg_sum_le_dot l s w (fun a ha => (hs a ha).1) hw
    linarith
  · rw [div_le_one hpos]
    exact dot_le_sum l s w (fun a ha => (hs a ha).2) hw

theorem sourceWeight_nonneg (s : String) : 0 ≤ sourceWeight s := by
  unfold sourceWeight
  split_ifs <;> norm_num

theorem sourceWeight_le_one (s : String) : sourceWeight s ≤ 1 := by
  unfold sourceWeight
  split_ifs <;> norm_num

theorem calcWeighted_score_pos (items : List ItemSentiment)
    (hpos : 0 < (items.map effectiveWeight).sum) :
    (calcWeightedSentiment items).score
      = (items.map (fun i => i.score * effectiveWeight i)).sum
        / (items.map effectiveWeight).sum := by
  have hne : items ≠ [] := by
    intro h
    subst h
    simp at hpos
  have hE : items.isEmpty = false := by
    cases items with
    | nil => exact absurd rfl hne
    | cons a t => rfl
  simp only [calcWeightedSentiment, hE, Bool.false_eq_true, if_false, if_pos hpos]

/-- C8: appending one item with score 1.0 and the maximum possible effective
weight (news_api reliability 1.0 × the item-level confidence cap 0.95) to a
non-empty item list with positive total effective weight never decreases the
subject's aggregate score. -/
theorem C8_monotone_dominance (items : List ItemSentiment) (hne : items ≠ [])
    (hb : ∀ i ∈ items, i.score ≤ 1 ∧ 0 ≤ i.conf)
    (hw : 0 < (items.map effectiveWeight).sum) :
    (calcWeightedSentiment items).score ≤
      (calcWeightedSentiment (items ++ [⟨1, 95/100, .positive, "news_api"⟩])).score := by
  have hwnn : ∀ i ∈ items, 0 ≤ effectiveWeight i := fun i hi =>
    mul_nonneg (sourceWeight_nonneg _) (hb i hi).2
  have hSW : (items.map (fun i => i.score * effectiveWeight i)).sum
      ≤ (items.map effectiveWeight).sum :=
    dot_le_sum items (fun i => i.score) effectiveWeight (fun i hi => (hb i hi).1) hwnn
  have em : effectiveWeight (⟨1, 95/100, .positive, "news_api"⟩ : ItemSentiment) = 95/100 := by
    norm_num [effectiveWeight, sourceWeight]
  have hW' : ((items ++ [(⟨1, 95/100, .positive, "news_api"⟩ : ItemSentiment)]).map
        effectiveWeight).sum
      = (items.map effectiveWeight).sum + 95/100 := by
    simp [em]
  have hS' : ((items ++ [(⟨1, 95/100, .positive, "news_api"⟩ : ItemSentiment)]).map
        (fun i => i.score * effectiveWeight i)).sum
      = (items.map (fun i => i.score * effectiveWeight i)).sum + 95/100 := by
    simp [em]
  have hpos' : 0 < ((items ++ [(⟨1, 95/100, .positive, "news_api"⟩ : ItemSentiment)]).map
      effectiveWeight).sum := by
    rw [hW']
    linarith
  rw [calcWeighted_score_pos items hw, calcWeighted_score_pos _ hpos', hW', hS']
  rw [div_le_div_iff₀ hw (by linarith : (0:ℚ) < (items.map effectiveWeight).sum + 95/100)]
  nlinarith [hSW, hw]

/-- Witness for C8 at a one-item subject. -/
theorem C8_witness :
    ([⟨1/2, 1/2, Sentiment.positive, "news_api"⟩] : List ItemSentiment) ≠ [] ∧
    (calcWeightedSentiment [⟨1/2, 1/2, .positive, "news_api"⟩]).score ≤
      (calcWeightedSentiment ([⟨1/2, 1/2, .positive, "news_api"⟩]
        ++ [⟨1, 95/100, .positive, "news_api"⟩])).score := by
  refine ⟨by simp, ?_⟩
  exact C8_monotone_dominance _ (by simp)
    (by
      intro i hi
      rw [List.mem_singleton] at hi
      subst hi
      norm_num)
    (by norm_num [effectiveWeight, sourceWeight])

end SentimentTool

namespace SentimentTool

/-- The spec's range invariant for one produced pair: score in [-1,1],
confidence in [0,1]. -/
def ScoreConfInRange (s c : ℚ) : Prop := -1 ≤ s ∧ s ≤ 1 ∧ 0 ≤ c ∧ c ≤ 1

theorem keyword_range (t : List Char) (r : MethodResult)
    (h : analyzeFinancialKeywords t = some r) : ScoreConfInRange r.score r.conf := by
  have hposW : 0 ≤ kwPosWeight t := by
    unfold kwPosWeight
    positivity
  have hnegW : 0 ≤ kwNegWeight t := by
    unfold kwNegWeight
    positivity
  rw [analyzeFinancialKeywords] at h
  split at h
  · exact absurd h (by simp)
  · rw [Option.some.injEq] at h
    subst h
    refine ⟨(clampQ_mem _ _ _ (by norm_num)).1, (clampQ_mem _ _ _ (by norm_num)).2, ?_, ?_⟩
    · rw [pyMin_eq_min]
      exact le_min (by norm_num) (by nlinarith)
    · rw [pyMin_eq_min]
      exact (min_le_left _ _).trans (by norm_num)

theorem pattern_range (t : List Char) :
    ScoreConfInRange (analyzeSentimentPatterns t).score (analyzeSentimentPatterns t).conf := by
  simp only [analyzeSentimentPatterns]
  exact ⟨(clampQ_mem _ _ _ (by norm_num)).1, (clampQ_mem _ _ _ (by norm_num)).2,
    by norm_num, by norm_num⟩

theorem context_range (t : List Char) :
    ScoreConfInRange (analyzeContextSentiment t).score (analyzeContextSentiment t).conf := by
  simp only [analyzeContextSentiment]
  refine ⟨(clampQ_mem _ _ _ (by norm_num)).1, (clampQ_mem _ _ _ (by norm_num)).2, ?_, ?_⟩
  · rw [pyMax_eq_max]
    exact le_trans (by norm_num) (le_max_left (1/10) _)
  · rw [pyMax_eq_max, pyMin_eq_min]
    exact max_le (by norm_num) ((min_le_left _ _).trans (by norm_num))

theorem combine_range (ss : List MethodResult) (n : Nat)
    (h : ∀ r ∈ ss, ScoreConfInRange r.score r.conf) :
    ScoreConfInRange (combineSentimentScores ss n).score (combineSentimentScores ss n).conf := by
  by_cases hE : ss.isEmpty
  · simp only [combineSentimentScores, hE, if_true]
    norm_num [ScoreConfInRange]
  · have hE' : ss.isEmpty = false := by simpa using hE
    have hcnn : ∀ r ∈ ss, 0 ≤ r.conf := fun r hr => (h r hr).2.2.1
    by_cases hpos : 0 < (ss.map (fun r => r.conf)).sum
    · simp only [combineSentimentScores, hE', Bool.false_eq_true, if_false, if_pos hpos]
      have hmm := weighted_mean_mem ss (fun r => r.score) (fun r => r.conf)
        (fun r hr => ⟨(h r hr).1, (h r hr).2.1⟩) hcnn hpos
      refine ⟨hmm.1, hmm.2, ?_, ?_⟩
      · rw [pyMin_eq_min]
        exact le_min (by norm_num)
          (div_nonneg (sum_map_nonneg _ _ hcnn) (Nat.cast_nonneg _))
      · rw [pyMin_eq_min]
        exact (min_le_left _ _).trans (by norm_num)
    · simp only [combineSentimentScores, hE', Bool.false_eq_true, if_false, if_neg hpos]
      norm_num [ScoreConfInRange]

theorem weighted_range (items : List ItemSentiment)
    (h : ∀ i ∈ items, ScoreConfInRange i.score i.conf) :
    ScoreConfInRange (calcWeightedSentiment items).score (calcWeightedSentiment items).conf := by
  by_cases hE : items.isEmpty
  · simp only [calcWeightedSentiment, hE, if_true]
    norm_num [ScoreConfInRange]
  · have hE' : items.isEmpty = false := by simpa using hE
    have hwnn : ∀ i ∈ items, 0 ≤ effectiveWeight i := fun i hi =>
      mul_nonneg (sourceWeight_nonneg _) (h i hi).2.2.1
    by_cases hpos : 0 < (items.map effectiveWeight).sum
    · simp only [calcWeightedSentiment, hE', Bool.false_eq_true, if_false, if_pos hpos]
      have hmm := weighted_mean_mem items (fun i => i.score) effectiveWeight
        (fun i hi => ⟨(h i hi).1, (h i hi).2.1⟩) hwnn hpos
      refine ⟨hmm.1, hmm.2, ?_, ?_⟩
      · rw [pyMin_eq_min]
        exact le_min (by norm_num)
          (div_nonneg (sum_map_nonneg _ _ hwnn) (Nat.cast_nonneg _))
      · rw [pyMin_eq_min]
        exact (min_le_left _ _).trans (by norm_num)
    · simp only [calcWeightedSentiment, hE', Bool.false_eq_true, if_false, if_neg hpos]
      norm_num [ScoreConfInRange]

theorem overall_range (entries : List ProfileEntry)
    (h : ∀ v ∈ validProfiles entries, -1 ≤ v.1 ∧ v.1 ≤ 1 ∧ 0 ≤ v.2.1) :
    ScoreConfInRange (calcOverallSentiment entries).score (calcOverallSentiment entries).conf := by
  by_cases hE : (validProfiles entries).isEmpty
  · simp only [calcOverallSentiment, hE, if_true]
    norm_num [ScoreConfInRange]
  · have hE' : (validProfiles entries).isEmpty = false := by simpa using hE
    have hwnn : ∀ v ∈ validProfiles entries, 0 ≤ (v.2.2 : ℚ) * v.2.1 := fun v hv =>
      mul_nonneg (Nat.cast_nonneg _) (h v hv).2.2
    simp only [calcOverallSentiment, hE', Bool.false_eq_true, if_false]
    refine ⟨?_, ?_, ?_, ?_⟩
    · by_cases hpos : 0 < ((validProfiles entries).map (fun v => (v.2.2 : ℚ) * v.2.1)).sum
      · rw [if_pos hpos]
        exact (weighted_mean_mem (validProfiles entries) (fun v => v.1)
          (fun v => (v.2.2 : ℚ) * v.2.1) (fun v hv => ⟨(h v hv).1, (h v hv).2.1⟩)
          hwnn hpos).1
      · rw [if_neg hpos]
        norm_num
    · by_cases hpos : 0 < ((validProfiles entries).map (fun v => (v.2.2 : ℚ) * v.2.1)).sum
      · rw [if_pos hpos]
        exact (weighted_mean_mem (validProfiles entries) (fun v => v.1)
          (fun v => (v.2.2 : ℚ) * v.2.1) (fun v hv => ⟨(h v hv).1, (h v hv).2.1⟩)
          hwnn hpos).2
      · rw [if_neg hpos]
        norm_num
    · rw [pyMin_eq_min]
      refine le_min (by norm_num) ?_
      have : (0:ℚ) ≤ ((((validProfiles entries).map (fun v => v.2.2)).sum : Nat) : ℚ) :=
        Nat.cast_nonneg _
      nlinarith
    · rw [pyMin_eq_min]
      exact (min_le_left _ _).trans (by norm_num)

theorem advanced_scores_range (tc : List Char) :
    ∀ r ∈ ((match analyzeFinancialKeywords tc with
            | some k => [k]
            | none => []) ++ [analyzeSentimentPatterns tc, analyzeContextSentiment tc]),
      ScoreConfInRange r.score r.conf := by
  intro r hr
  rw [List.mem_append] at hr
  rcases hr with hr | hr
  · cases hk : analyzeFinancialKeywords tc with
    | none =>
        rw [hk] at hr
        simp at hr
    | some k =>
        rw [hk] at hr
        simp only [List.mem_singleton] at hr
        subst hr
        exact keyword_range tc r hk
  · simp only [List.mem_cons, List.mem_singleton, List.not_mem_nil, or_false] at hr
    rcases hr with hr | hr <;> subst hr
    · exact pattern_range tc
    · exact context_range tc

theorem advanced_range (tc : List Char) (r : ItemResult)
    (h : analyzeAdvancedFromClean tc = some r) : ScoreConfInRange r.score r.conf := by
  simp only [analyzeAdvancedFromClean] at h
  split at h
  · exact absurd h (by simp)
  · rw [Option.some.injEq] at h
    subst h
    split
    · norm_num [ScoreConfInRange]
    · exact combine_range _ _ (advanced_scores_range tc)

/-- C9: every score produced by a method scorer, by the item-level combination,
by the subject-level aggregation (on in-range inputs, as the pipeline supplies)
or by the batch-level aggregation lies in [-1,1], and every produced confidence
lies in [0,1]. -/
theorem C9_range_invariant :
    (∀ t r, analyzeFinancialKeywords t = some r → ScoreConfInRange r.score r.conf) ∧
    (∀ t, ScoreConfInRange (analyzeSentimentPatterns t).score (analyzeSentimentPatterns t).conf) ∧
    (∀ t, ScoreConfInRange (analyzeContextSentiment t).score (analyzeContextSentiment t).conf) ∧
    (∀ tc r, analyzeAdvancedFromClean tc = some r → ScoreConfInRange r.score r.conf) ∧
    (∀ items : List ItemSentiment, (∀ i ∈ items, ScoreConfInRange i.score i.conf) →
      ScoreConfInRange (calcWeightedSentiment items).score (calcWeightedSentiment items).conf) ∧
    (∀ entries : List ProfileEntry,
      (∀ v ∈ validProfiles entries, -1 ≤ v.1 ∧ v.1 ≤ 1 ∧ 0 ≤ v.2.1) →
      ScoreConfInRange (calcOverallSentiment entries).score (calcOverallSentiment entries).conf) :=
  ⟨keyword_range, pattern_range, context_range, advanced_range, weighted_range, overall_range⟩

/-- Witness for C9 at concrete inputs. -/
theorem C9_witness :
    ScoreConfInRange (analyzeSentimentPatterns "great stock!".toList).score
      (analyzeSentimentPatterns "great stock!".toList).conf ∧
    ScoreConfInRange (calcWeightedSentiment []).score (calcWeightedSentiment []).conf :=
  ⟨C9_range_invariant.2.1 _, C9_range_invariant.2.2.2.2.1 [] (by simp)⟩

end SentimentTool

namespace SentimentTool

/-- Whether a profile entry is a non-error entry (`'error' not in data`). -/
def ProfileEntry.isOkEntry : ProfileEntry → Bool
  | .err _ _ => false
  | .ok _ _ => true

theorem validProfiles_filter (l : List ProfileEntry) :
    validProfiles (l.filter ProfileEntry.isOkEntry) = validProfiles l := by
  induction l with
  | nil => rfl
  | cons e t ih =>
      cases e with
      | err m c =>
          simp only [validProfiles] at ih ⊢
          simp [List.filter_cons, ProfileEntry.isOkEntry, List.filterMap_cons, ih]
      | ok c avg =>
          simp only [validProfiles] at ih ⊢
          simp [List.filter_cons, ProfileEntry.isOkEntry, List.filterMap_cons, ih]

theorem calcOverall_congr {l l' : List ProfileEntry}
    (h : validProfiles l = validProfiles l') :
    calcOverallSentiment l = calcOverallSentiment l' := by
  unfold calcOverallSentiment
  rw [h]

/-- C7: a profile whose supplier raises is recorded as an error entry (and in
the errors list); a profile with no content is recorded as the "no content"
error entry; every profile's entry is determined by its own supplier outcome
alone, so other profiles are unaffected; error entries are excluded from the
overall aggregate; and the call returns one entry per requested profile. -/
theorem C7_per_subject_errors (ps : List (List Char)) (f : List Char → FetchOutcome) :
    (analyzeProfilesSentimentModel ps f).profileResults.length = ps.length ∧
    (∀ p ∈ ps, ∀ m, f p = .raises m →
      ((p, ProfileEntry.err m 0) ∈ (analyzeProfilesSentimentModel ps f).profileResults ∧
       ("Profile ".toList ++ p ++ ": ".toList ++ m)
         ∈ (analyzeProfilesSentimentModel ps f).errors)) ∧
    (∀ p ∈ ps, f p = .content [] →
      (pyLstripAt p, ProfileEntry.err noContentMsg 0)
        ∈ (analyzeProfilesSentimentModel ps f).profileResults) ∧
    (∀ p ∈ ps, (profileKey p (f p), analyzeOneProfile (f p))
        ∈ (analyzeProfilesSentimentModel ps f).profileResults) ∧
    (analyzeProfilesSentimentModel ps f).overall
      = calcOverallSentiment
          (((analyzeProfilesSentimentModel ps f).profileResults.map Prod.snd).filter
            ProfileEntry.isOkEntry) := by
  refine ⟨?_, ?_, ?_, ?_, ?_⟩
  · simp [analyzeProfilesSentimentModel]
  · intro p hp m hm
    constructor
    · have h1 : (profileKey p (f p), analyzeOneProfile (f p))
          ∈ (analyzeProfilesSentimentModel ps f).profileResults :=
        List.mem_map_of_mem _ hp
      rw [hm] at h1
      exact h1
    · refine List.mem_filterMap.mpr ⟨p, hp, ?_⟩
      rw [hm]
  · intro p hp hm
    have h1 : (profileKey p (f p), analyzeOneProfile (f p))
        ∈ (analyzeProfilesSentimentModel ps f).profileResults :=
      List.mem_map_of_mem _ hp
    rw [hm] at h1
    exact h1
  · intro p hp
    exact List.mem_map_of_mem _ hp
  · exact (calcOverall_congr (validProfiles_filter _)).symm

/-- Witness for C7: a batch of two profiles, the first raising, the second
with empty content. -/
theorem C7_witness :
    ("a".toList ∈ (["a".toList, "@b".toList] : List (List Char))) ∧
    ("a".toList, ProfileEntry.err "boom".toList 0)
      ∈ (analyzeProfilesSentimentModel ["a".toList, "@b".toList]
          (fun p => if p = "a".toList then FetchOutcome.raises "boom".toList
                    else FetchOutcome.content [])).profileResults := by
  refine ⟨by simp, ?_⟩
  exact ((C7_per_subject_errors _ _).2.1 "a".toList (by simp) "boom".toList (by rfl)).1

/-- C10: item-level analysis returns null exactly when the cleaned text has
fewer than 5 characters after stripping — in particular non-empty cleaned
texts of length 1-4 are discarded, and any cleaned text of stripped length at
least 5 always yields a result (the pattern scorer, which never returns null,
guarantees the combination input is non-empty). -/
theorem C10_min_length_gate :
    (∀ tc, analyzeAdvancedFromClean tc = none ↔ (pyStrip tc).length < 5) ∧
    (∀ raw, analyzeAdvancedSentiment raw = none ↔ (pyStrip (cleanText raw)).length < 5) := by
  have main : ∀ tc : List Char, analyzeAdvancedFromClean tc = none ↔ (pyStrip tc).length < 5 := by
    intro tc
    have hcond : (tc.isEmpty || decide ((pyStrip tc).length < 5)) = true ↔
        (pyStrip tc).length < 5 := by
      rw [Bool.or_eq_true, decide_eq_true_eq, List.isEmpty_iff]
      constructor
      · rintro (rfl | h)
        · simp [pyStrip]
        · exact h
      · intro h
        exact Or.inr h
    rw [analyzeAdvancedFromClean]
    by_cases hc : (tc.isEmpty || decide ((pyStrip tc).length < 5)) = true
    · rw [if_pos hc]
      exact iff_of_true rfl (hcond.mp hc)
    · rw [if_neg hc]
      exact iff_of_false (by simp) (fun h => hc (hcond.mpr h))
  exact ⟨main, fun raw => main (cleanText raw)⟩

end SentimentTool
